import Mathlib

/-!
Verification development for the FlashThreat enrichment aggregation engine.

The frontend React components (IOCForm, HomePage, CheckResultPage,
ProviderCard, BulkPage) are embedded directly from the JavaScript source.
The backend engine (classifier, scoring, cache, orchestrator, bulk runner)
is not present in the repository snapshot, so those parts are modelled from
the specification; each such definition carries a doc comment saying so.
-/

/-! ## Basic string machinery (structural, over `String.data`) -/

/-- Whitespace characters removed by JavaScript `String.prototype.trim`
(modelled over the ASCII whitespace set). -/
def isSpaceChar (c : Char) : Bool :=
  c == ' ' || c == '\t' || c == '\n' || c == '\r'

/-- Drop leading characters satisfying `isSpaceChar`. -/
def dropLeadingWS : List Char → List Char
  | [] => []
  | c :: cs => if isSpaceChar c then dropLeadingWS cs else c :: cs

/-- Embeds the JavaScript `ioc.trim()` call used by `IOCForm.handleSubmit`
(IOCForm.jsx): strip surrounding whitespace. -/
def jsTrim (s : String) : String :=
  ⟨dropLeadingWS ((dropLeadingWS s.data.reverse).reverse)⟩

/-! ## Data model (spec §3) -/

inductive ProviderStatus
  | ok | not_found | auth_error | rate_limited | timeout | error
deriving DecidableEq

inductive Severity
  | info | low | medium | high | critical
deriving DecidableEq

structure Evidence where
  title : String
  category : String
  severity : Severity
  description : String
deriving DecidableEq

structure ProviderResult where
  provider : String
  status : ProviderStatus
  latencyMs : Nat
  reputation : Option Nat
  maliciousCount : Option Nat
  totalChecks : Option Nat
  evidence : List Evidence
  cached : Bool
deriving DecidableEq

/-! ## IOCForm (frontend/src/components/IOC/IOCForm.jsx) -/

/-- Embeds `IOCForm.handleSubmit`: the `onSubmit` callback fires only when
`ioc.trim()` is truthy (a non-empty string), and the submitted value is the
trimmed string together with the `forceRefresh` flag. `none` means the
callback is not invoked. -/
def handleSubmit (ioc : String) (forceRefresh : Bool) : Option (String × Bool) :=
  if jsTrim ioc ≠ "" then some (jsTrim ioc, forceRefresh) else none

/-- Embeds the submit button's `disabled` expression in IOCForm.jsx:
`isLoading || !ioc.trim()`. -/
def submitDisabled (isLoading : Bool) (ioc : String) : Bool :=
  isLoading || jsTrim ioc == ""

/-! ## Provider display and page state (HomePage.jsx, CheckResultPage, ProviderCard.jsx) -/

/-- Embeds `ProviderCard.getProviderName`: display name switch over the four
supported providers, defaulting to the raw provider string. -/
def getProviderName (p : String) : String :=
  if p = "virustotal" then "VirusTotal"
  else if p = "abuseipdb" then "AbuseIPDB"
  else if p = "shodan" then "Shodan"
  else if p = "otx" then "AlienVault OTX"
  else p

/-- Keys of the `providerResults` object in HomePage.jsx's `useState`
initializer (lines 11-15): virustotal, abuseipdb, otx. -/
def homeInitialProviders : List String :=
  ["virustotal", "abuseipdb", "otx"]

/-- Keys of the `providerResults` object installed by
`HomePage.handleSubmit`'s reset (lines 30-35): virustotal, abuseipdb,
shodan, otx. -/
def homeSubmitResetProviders : List String :=
  ["virustotal", "abuseipdb", "shodan", "otx"]

/-- Keys of the `providerResults` objects in CheckResultPage (both the
`useState` initializer and the `handleIocCheck` reset): virustotal,
abuseipdb, otx. -/
def checkResultInitialProviders : List String :=
  ["virustotal", "abuseipdb", "otx"]

/-- Providers for which HomePage.jsx and CheckResultPage render a
`ProviderCard` (the three cards in the provider grid). -/
def renderedProviders : List String :=
  ["virustotal", "abuseipdb", "otx"]

/-! ## Stream consumer state (HomePage.jsx / CheckResultPage `onProvider`) -/

structure ProviderEvent where
  provider : String
  result : ProviderResult
deriving DecidableEq

/-- Embeds the `onProvider` callback of HomePage.jsx/CheckResultPage: store
the event's payload in the state object under the event's provider name,
leaving the other keys unchanged. -/
def applyProviderEvent (st : String → Option ProviderResult) (e : ProviderEvent) :
    String → Option ProviderResult :=
  fun p => if p = e.provider then some e.result else st p

/-- Fold a sequence of provider-completion events through the keyed state
update, in arrival order. -/
def streamFold (init : String → Option ProviderResult) (es : List ProviderEvent) :
    String → Option ProviderResult :=
  es.foldl applyProviderEvent init

/-- The data the provider grid actually shows: the state slots of the three
rendered providers, in render order. -/
def displayedResults (st : String → Option ProviderResult) :
    List (String × Option ProviderResult) :=
  renderedProviders.map fun p => (p, st p)

/-- The all-`null` state the pages start from. -/
def emptyStream : String → Option ProviderResult := fun _ => none

/-! ## Scoring Engine (spec §4.6) — the backend implementation is absent
from the repository snapshot, so this section is modelled from the spec. -/

inductive VerdictCategory
  | clean | unknown | suspicious | malicious
deriving DecidableEq

/-- Rank of a verdict category, for stating monotonicity of the buckets. -/
def categoryRank : VerdictCategory → Nat
  | .clean => 0
  | .unknown => 1
  | .suspicious => 2
  | .malicious => 3

structure Verdict where
  score : Nat
  category : VerdictCategory
  explanation : String
  contributingProviders : List String
deriving DecidableEq

/-- Modelled from the spec: category thresholds on the continuous score,
`[0,20) = clean`, `[20,50) = unknown`, `[50,80) = suspicious`,
`[80,100] = malicious`. -/
def categoryOf (s : Nat) : VerdictCategory :=
  if s < 20 then .clean
  else if s < 50 then .unknown
  else if s < 80 then .suspicious
  else .malicious

/-- Modelled from the spec: a provider reporting explicit "malicious"
categorical evidence (e.g. a blocklist hit). -/
def hasMaliciousEvidence (r : ProviderResult) : Bool :=
  r.evidence.any fun e => e.category == "malicious"

/-- Modelled from the spec: fixed positive per-provider weights for the
weighted average (the spec fixes existence, not the numbers). -/
def providerWeight (p : String) : Nat :=
  if p = "virustotal" then 3
  else if p = "abuseipdb" then 2
  else if p = "otx" then 2
  else 1

/-- Modelled from the spec: the normalized sub-score in `[0,100]` of one
provider. Only a `status = ok` provider with a known reputation/detection
figure contributes; a provider with explicit categorical malicious evidence
and no numeric figure contributes 100. `none` means the provider does not
contribute a numeric sub-score. -/
def subScore (r : ProviderResult) : Option Nat :=
  if r.status = ProviderStatus.ok then
    match r.reputation with
    | some rep => some (min rep 100)
    | none =>
      match r.maliciousCount, r.totalChecks with
      | some m, some t =>
        if t = 0 then (if hasMaliciousEvidence r then some 100 else none)
        else some (min (m * 100 / t) 100)
      | _, _ => if hasMaliciousEvidence r then some 100 else none
  else none

structure Contribution where
  provider : String
  weight : Nat
  sub : Nat
deriving DecidableEq

/-- The contributing providers of a result set, with weight and sub-score. -/
def contributions (rs : List ProviderResult) : List Contribution :=
  rs.filterMap fun r =>
    (subScore r).map fun s => ⟨r.provider, providerWeight r.provider, s⟩

/-- Join strings with a comma separator (structural helper). -/
def joinWithComma : List String → String
  | [] => ""
  | [s] => s
  | s :: t :: rest => s ++ ", " ++ joinWithComma (t :: rest)

def statusName : ProviderStatus → String
  | .ok => "ok"
  | .not_found => "not_found"
  | .auth_error => "auth_error"
  | .rate_limited => "rate_limited"
  | .timeout => "timeout"
  | .error => "error"

/-- One explanation fragment per non-contributing provider, naming the
provider and why it was unavailable. -/
def unavailableParts (rs : List ProviderResult) : List String :=
  rs.map fun r => r.provider ++ " unavailable: " ++ statusName r.status

/-- Weighted average of the contributing sub-scores. -/
def weightedScore (cs : List Contribution) : Nat :=
  (cs.map fun c => c.weight * c.sub).sum / (cs.map fun c => c.weight).sum

/-- Modelled from the spec: `score(providerResults)` — weighted average over
contributing providers only; zero contributors yield the `unknown` verdict
with score 0 and an explanation naming the unavailable providers; otherwise
the category is the threshold bucket of the score. Always returns a
`Verdict`, never a failure. -/
def score (rs : List ProviderResult) : Verdict :=
  if (contributions rs).isEmpty then
    { score := 0
      category := .unknown
      explanation := "no providers contributed: " ++ joinWithComma (unavailableParts rs)
      contributingProviders := [] }
  else
    { score := weightedScore (contributions rs)
      category := categoryOf (weightedScore (contributions rs))
      explanation := "based on " ++ joinWithComma ((contributions rs).map Contribution.provider)
      contributingProviders := (contributions rs).map Contribution.provider }

/-! ## IOC Classifier (spec §4.1) — the backend implementation is absent
from the repository snapshot, so this section is modelled from the spec.
String shapes are implemented structurally over `String.data`. -/

def isHexChar (c : Char) : Bool :=
  c.isDigit || ('a' ≤ c && c ≤ 'f') || ('A' ≤ c && c ≤ 'F')

/-- Decimal value of a digit string. -/
def digitsVal (cs : List Char) : Nat :=
  cs.foldl (fun n c => n * 10 + (c.toNat - '0'.toNat)) 0

/-- Split a character list on a separator character; always returns a
non-empty list of (possibly empty) segments. -/
def splitOnChar (sep : Char) : List Char → List (List Char)
  | [] => [[]]
  | c :: rest =>
    match splitOnChar sep rest with
    | [] => if c == sep then [[], []] else [[c]]
    | h :: t => if c == sep then [] :: h :: t else (c :: h) :: t

/-- One dotted-decimal IPv4 octet: 1-3 digits with value at most 255. -/
def isOctet (p : List Char) : Bool :=
  !p.isEmpty && decide (p.length ≤ 3) && p.all Char.isDigit
    && decide (digitsVal p ≤ 255)

/-- Modelled from the spec: an IPv4 literal — four dot-separated octets. -/
def isIPv4 (cs : List Char) : Bool :=
  let parts := splitOnChar '.' cs
  parts.length == 4 && parts.all isOctet

/-- Modelled from the spec: an IPv6 literal — non-empty, contains a colon,
and consists of hex digits and colons. -/
def isIPv6 (cs : List Char) : Bool :=
  cs.contains ':' && !cs.isEmpty && cs.all fun c => isHexChar c || c == ':'

/-- A non-empty hex-only string (the hash shapes add the length check). -/
def isHexString (cs : List Char) : Bool :=
  !cs.isEmpty && cs.all isHexChar

/-- The characters before the first `://`, if that separator occurs. -/
def schemeSplit : List Char → Option (List Char)
  | ':' :: '/' :: '/' :: _ => some []
  | c :: rest => (schemeSplit rest).map fun p => c :: p
  | [] => none

/-- Modelled from the spec: a URL — the string has a scheme, i.e. a
non-empty alphabetic segment before `://`. -/
def hasScheme (cs : List Char) : Bool :=
  match schemeSplit cs with
  | some p => !p.isEmpty && p.all Char.isAlpha
  | none => false

def isDomainChar (c : Char) : Bool :=
  c.isAlphanum || c == '-' || c == '.' || c == '_'

/-- Modelled from the spec: a domain — non-empty, contains at least one dot,
and no invalid characters. -/
def isDomain (cs : List Char) : Bool :=
  cs.contains '.' && !cs.isEmpty && cs.all isDomainChar

inductive IndicatorKind
  | ipv4 | ipv6 | domain | url | md5 | sha1 | sha256
deriving DecidableEq

structure Indicator where
  value : String
  kind : IndicatorKind
  canonicalForm : String
deriving DecidableEq

structure ClassificationFailure where
  reason : String
deriving DecidableEq

def lowerStr (s : String) : String :=
  ⟨s.data.map Char.toLower⟩

/-- The characters before the first `#` (URL fragment stripping). -/
def stripFragment : List Char → List Char
  | [] => []
  | '#' :: _ => []
  | c :: rest => c :: stripFragment rest

/-- Modelled from the spec: the canonical cache-key form — lower-cased
domains and hashes, fragment-stripped URLs, IP literals unchanged. -/
def canonicalOf (k : IndicatorKind) (t : String) : String :=
  match k with
  | .domain => lowerStr t
  | .md5 => lowerStr t
  | .sha1 => lowerStr t
  | .sha256 => lowerStr t
  | .url => ⟨stripFragment t.data⟩
  | _ => t

/-- Modelled from the spec: `classify(raw)` — strips surrounding whitespace,
then tries in order IPv4 literal, IPv6 literal, hash (length 32 = md5,
40 = sha1, 64 = sha256, hex-only), URL (has a scheme), else domain; fails
exactly when the string is empty or matches none of these shapes. -/
def classify (raw : String) : Except ClassificationFailure Indicator :=
  if (jsTrim raw).data.isEmpty then .error ⟨"empty input"⟩
  else if isIPv4 (jsTrim raw).data then
    .ok ⟨jsTrim raw, .ipv4, canonicalOf .ipv4 (jsTrim raw)⟩
  else if isIPv6 (jsTrim raw).data then
    .ok ⟨jsTrim raw, .ipv6, canonicalOf .ipv6 (jsTrim raw)⟩
  else if isHexString (jsTrim raw).data && (jsTrim raw).data.length == 32 then
    .ok ⟨jsTrim raw, .md5, canonicalOf .md5 (jsTrim raw)⟩
  else if isHexString (jsTrim raw).data && (jsTrim raw).data.length == 40 then
    .ok ⟨jsTrim raw, .sha1, canonicalOf .sha1 (jsTrim raw)⟩
  else if isHexString (jsTrim raw).data && (jsTrim raw).data.length == 64 then
    .ok ⟨jsTrim raw, .sha256, canonicalOf .sha256 (jsTrim raw)⟩
  else if hasScheme (jsTrim raw).data then
    .ok ⟨jsTrim raw, .url, canonicalOf .url (jsTrim raw)⟩
  else if isDomain (jsTrim raw).data then
    .ok ⟨jsTrim raw, .domain, canonicalOf .domain (jsTrim raw)⟩
  else .error ⟨"unrecognized IOC shape"⟩

/-! ## Cache Layer (spec §4.4) — the backend implementation is absent from
the repository snapshot, so this section is modelled from the spec. -/

abbrev CacheKey := String × String

structure Cache where
  entries : List (CacheKey × ProviderResult)
deriving DecidableEq

def Cache.get (c : Cache) (k : CacheKey) : Option ProviderResult :=
  c.entries.lookup k

def Cache.put (c : Cache) (k : CacheKey) (v : ProviderResult) : Cache :=
  ⟨(k, v) :: c.entries⟩

/-- Definitive result statuses, the only ones that may be cached. -/
def cacheable (r : ProviderResult) : Bool :=
  match r.status with
  | .ok => true
  | .not_found => true
  | _ => false

structure FetchOutcome where
  result : ProviderResult
  fromCache : Bool
  cacheAfter : Cache
deriving DecidableEq

/-- Modelled from the spec: one provider's fetch path through the cache.
With `forceRefresh` the `get` is bypassed entirely and the live result is
used (and stored when definitive); otherwise a cache hit is returned tagged
`cached`, and on a miss the live call's outcome is stored only when its
status is `ok` or `not_found`. -/
def fetchWithCache (c : Cache) (k : CacheKey) (forceRefresh : Bool)
    (live : ProviderResult) : FetchOutcome :=
  if forceRefresh then
    ⟨live, false, if cacheable live then c.put k live else c⟩
  else
    match c.get k with
    | some r => ⟨{ r with cached := true }, true, c⟩
    | none => ⟨live, false, if cacheable live then c.put k live else c⟩

/-! ## Bulk Runner (spec §4.7) — the backend implementation is absent from
the repository snapshot, so this section is modelled from the spec. -/

structure BulkJob where
  total : Nat
  processed : Nat
  completed : Nat
  failed : Nat
  providerCalls : Nat
deriving DecidableEq

inductive JobStatus
  | pending | running | completed | failed
deriving DecidableEq

/-- Modelled from the spec: a job is `completed` exactly when
`processed == total`, and in flight otherwise. -/
def jobStatus (j : BulkJob) : JobStatus :=
  if j.processed = j.total then .completed else .running

/-- The freshly submitted job over `n` input lines. -/
def initJob (n : Nat) : BulkJob :=
  ⟨n, 0, 0, 0, 0⟩

/-- A line is malformed when the classifier rejects it. -/
def isMalformed (line : String) : Bool :=
  match classify line with
  | .error _ => true
  | .ok _ => false

inductive ItemOutcome
  | malformedItem | itemSucceeded | itemFailed

/-- Modelled from the spec: outcome of one bulk item. Malformed lines are
recorded as failed without a provider call; a well-formed line runs one
full orchestrator request, whose worker-level crash is abstracted by the
`crash` oracle and recorded as failed for that single item. -/
def lineOutcome (crash : String → Bool) (line : String) : ItemOutcome :=
  if isMalformed line then .malformedItem
  else if crash line then .itemFailed
  else .itemSucceeded

/-- Modelled from the spec: the progress-writer's atomic counter update for
one processed item. `providerCalls` counts items that consumed an
orchestrator (provider) run. -/
def bulkStep (crash : String → Bool) (j : BulkJob) (line : String) : BulkJob :=
  match lineOutcome crash line with
  | .malformedItem =>
    { j with processed := j.processed + 1, failed := j.failed + 1 }
  | .itemSucceeded =>
    { j with processed := j.processed + 1, completed := j.completed + 1,
             providerCalls := j.providerCalls + 1 }
  | .itemFailed =>
    { j with processed := j.processed + 1, failed := j.failed + 1,
             providerCalls := j.providerCalls + 1 }

/-- Every intermediate job state of the job's lifetime, starting with the
freshly submitted job. -/
def bulkTrace (crash : String → Bool) (lines : List String) : List BulkJob :=
  lines.scanl (bulkStep crash) (initJob lines.length)

/-- The terminal job state. -/
def runBulk (crash : String → Bool) (lines : List String) : BulkJob :=
  lines.foldl (bulkStep crash) (initJob lines.length)

/-! ## Fetch Orchestrator and streaming protocol (spec §4.5, §6) — the
backend implementation is absent from the repository snapshot, so this
section is modelled from the spec. -/

structure AggregateResult where
  indicator : Indicator
  providerResults : List ProviderResult
  verdict : Verdict
deriving DecidableEq

inductive StreamEvent
  | providerSettled (provider : String) (result : ProviderResult)
  | streamComplete (agg : AggregateResult)
deriving DecidableEq

/-- How one provider's task ends for a given request: it settles with a
result before the overall deadline, or is still outstanding when the
deadline elapses. -/
inductive ProviderOutcome
  | settles (r : ProviderResult)
  | outstandingAtDeadline

/-- The result slot recorded for a provider still outstanding at the
overall deadline: status `timeout`. -/
def timeoutResult (p : String) : ProviderResult :=
  ⟨p, .timeout, 0, none, none, none, [], false⟩

/-- Modelled from the spec: the settlement the orchestrator records for one
provider — its own settled result, or a `timeout` slot if it was still
outstanding at the overall deadline. Every per-provider failure is data,
never an exception. -/
def settleOf (behavior : String → ProviderOutcome) (p : String) : ProviderResult :=
  match behavior p with
  | .settles r => r
  | .outstandingAtDeadline => timeoutResult p

/-- Modelled from the spec: the event trace of one orchestrated request —
one settlement notification per configured provider, followed by exactly
one terminal event carrying the `AggregateResult` with the verdict computed
by the scoring engine. -/
def orchestrate (ind : Indicator) (providers : List String)
    (behavior : String → ProviderOutcome) : List StreamEvent :=
  (providers.map fun p => StreamEvent.providerSettled p (settleOf behavior p))
    ++ [StreamEvent.streamComplete
          ⟨ind, providers.map (settleOf behavior),
           score (providers.map (settleOf behavior))⟩]

/-- Modelled from the spec: a full request — classification first (the only
hard failure), then orchestration over the configured providers. -/
def runRequest (raw : String) (providers : List String)
    (behavior : String → ProviderOutcome) :
    Except ClassificationFailure (List StreamEvent) :=
  (classify raw).map fun ind => orchestrate ind providers behavior

/-- Number of terminal (`onComplete`) events in a trace. -/
def completeCount (evs : List StreamEvent) : Nat :=
  evs.countP fun e =>
    match e with
    | .streamComplete _ => true
    | _ => false

/-- Number of settlement notifications a given provider contributed. -/
def settleCount (p : String) (evs : List StreamEvent) : Nat :=
  evs.countP fun e =>
    match e with
    | .providerSettled q _ => q == p
    | _ => false

/-! ## Concrete sample data (used by closed witness statements) -/

def okSample (p : String) (rep : Nat) : ProviderResult :=
  ⟨p, .ok, 10, some rep, none, none, [], false⟩

def notFoundSample (p : String) : ProviderResult :=
  ⟨p, .not_found, 10, none, none, none, [], false⟩

def timeoutSample (p : String) : ProviderResult :=
  ⟨p, .timeout, 10, none, none, none, [], false⟩

def blocklistSample (p : String) : ProviderResult :=
  ⟨p, .ok, 10, none, none, none, [⟨"blocklist hit", "malicious", .high, "listed"⟩], false⟩

def allSettleOk : String → ProviderOutcome :=
  fun p => .settles (okSample p 95)

def noCrash : String → Bool := fun _ => false

/-- The first event carrying a given provider name, if any. -/
def lookupEvent (es : List ProviderEvent) (p : String) : Option ProviderEvent :=
  es.find? fun e => decide (e.provider = p)

/-! ## Theorems -/

/-- C9: the single-lookup form never invokes its `onSubmit` callback with an
empty or whitespace-only IOC string — `handleSubmit` fires `onSubmit` only
when the trimmed input is non-empty, the submitted value is always the
trimmed string with the chosen `forceRefresh` flag, and the submit button is
disabled whenever the trimmed input is empty or a lookup is in flight. -/
theorem iocform_never_submits_blank (ioc : String) (fr : Bool) :
    (∀ out, handleSubmit ioc fr = some out →
      out.1 = jsTrim ioc ∧ out.1 ≠ "" ∧ out.2 = fr)
    ∧ (jsTrim ioc = "" → handleSubmit ioc fr = none)
    ∧ (∀ loading : Bool, (jsTrim ioc = "" ∨ loading = true) →
        submitDisabled loading ioc = true) := by
  refine ⟨?_, ?_, ?_⟩
  · intro out h
    unfold handleSubmit at h
    split at h
    · next hne =>
      cases h
      exact ⟨rfl, hne, rfl⟩
    · exact absurd h (by simp)
  · intro h
    unfold handleSubmit
    simp [h]
  · intro loading h
    unfold submitDisabled
    rcases h with h | h
    · simp [h]
    · simp [h]

/-- C9 witness: on concrete inputs — `"  8.8.8.8  "` submits the trimmed
value, a whitespace-only input does not submit, and the button is disabled
while loading. -/
theorem iocform_never_submits_blank_witness :
    ("8.8.8.8" = jsTrim "  8.8.8.8  " ∧ "8.8.8.8" ≠ "" ∧ false = false)
    ∧ handleSubmit "   " true = none
    ∧ submitDisabled true "abc" = true :=
  ⟨(iocform_never_submits_blank "  8.8.8.8  " false).1 ("8.8.8.8", false) (by decide),
   (iocform_never_submits_blank "   " true).2.1 (by decide),
   (iocform_never_submits_blank "abc" false).2.2 true (Or.inr rfl)⟩

/-- C10 counterexample: `HomePage.handleSubmit`'s state reset (HomePage.jsx
lines 30-35) seeds a `shodan` slot as well, so it is not the case that the
single-lookup pages initialize per-provider state for only virustotal,
abuseipdb and otx. -/
theorem homepage_reset_seeds_shodan :
    "shodan" ∈ homeSubmitResetProviders
    ∧ homeSubmitResetProviders ≠ ["virustotal", "abuseipdb", "otx"] := by
  decide

/-- C10 (amended): the mount-time `useState` initializers of both
single-lookup pages cover exactly the three rendered providers (HomePage's
per-submit reset additionally seeds `shodan`), the display-name mapping
supports four providers, only virustotal, abuseipdb and otx get a rendered
`ProviderCard`, and a settlement event from any non-rendered provider is
stored in the consumer's state but leaves the displayed data unchanged. -/
theorem nonrendered_provider_stored_not_displayed
    (st : String → Option ProviderResult) (e : ProviderEvent)
    (h : e.provider ∉ renderedProviders) :
    (homeInitialProviders = renderedProviders
      ∧ checkResultInitialProviders = renderedProviders
      ∧ "shodan" ∈ homeSubmitResetProviders
      ∧ "shodan" ∉ renderedProviders)
    ∧ (getProviderName "virustotal" = "VirusTotal"
      ∧ getProviderName "abuseipdb" = "AbuseIPDB"
      ∧ getProviderName "shodan" = "Shodan"
      ∧ getProviderName "otx" = "AlienVault OTX")
    ∧ applyProviderEvent st e e.provider = some e.result
    ∧ displayedResults (applyProviderEvent st e) = displayedResults st := by
  have h1 : ¬ ("virustotal" = e.provider) :=
    fun hq => h (hq ▸ (by decide : "virustotal" ∈ renderedProviders))
  have h2 : ¬ ("abuseipdb" = e.provider) :=
    fun hq => h (hq ▸ (by decide : "abuseipdb" ∈ renderedProviders))
  have h3 : ¬ ("otx" = e.provider) :=
    fun hq => h (hq ▸ (by decide : "otx" ∈ renderedProviders))
  refine ⟨by decide, by decide, ?_, ?_⟩
  · simp [applyProviderEvent]
  · simp [displayedResults, renderedProviders, applyProviderEvent, h1, h2, h3]

/-- C10 witness: a concrete shodan settlement on the empty page state is
stored under its key but the displayed grid data is unchanged. -/
theorem nonrendered_provider_stored_not_displayed_witness :
    ("shodan" ∉ renderedProviders)
    ∧ applyProviderEvent emptyStream ⟨"shodan", okSample "shodan" 50⟩ "shodan"
        = some (okSample "shodan" 50)
    ∧ displayedResults (applyProviderEvent emptyStream ⟨"shodan", okSample "shodan" 50⟩)
        = displayedResults emptyStream :=
  ⟨by decide,
   (nonrendered_provider_stored_not_displayed emptyStream
      ⟨"shodan", okSample "shodan" 50⟩ (by decide)).2.2.1,
   (nonrendered_provider_stored_not_displayed emptyStream
      ⟨"shodan", okSample "shodan" 50⟩ (by decide)).2.2.2⟩

theorem streamFold_cons (init : String → Option ProviderResult)
    (e : ProviderEvent) (t : List ProviderEvent) :
    streamFold init (e :: t) = streamFold (applyProviderEvent init e) t := rfl

/-- Folding events none of which carries provider `p` leaves slot `p`
unchanged. -/
theorem streamFold_unchanged (init : String → Option ProviderResult)
    (es : List ProviderEvent) (p : String) (h : ∀ e ∈ es, e.provider ≠ p) :
    streamFold init es p = init p := by
  induction es generalizing init with
  | nil => rfl
  | cons e t ih =>
    rw [streamFold_cons, ih _ fun x hx => h x (List.mem_cons_of_mem _ hx)]
    unfold applyProviderEvent
    exact if_neg fun hq => h e (List.mem_cons_self e t) hq.symm

/-- With distinct provider names, the final slot of provider `p` is the
payload of the (unique) event carrying `p`, or the initial slot. -/
theorem streamFold_lookup (init : String → Option ProviderResult)
    (es : List ProviderEvent) (p : String)
    (hnd : (es.map ProviderEvent.provider).Nodup) :
    streamFold init es p =
      (lookupEvent es p).elim (init p) fun e => some e.result := by
  induction es generalizing init with
  | nil => rfl
  | cons e t ih =>
    rw [List.map_cons] at hnd
    have hmem : e.provider ∉ t.map ProviderEvent.provider := (List.nodup_cons.mp hnd).1
    have hnd' : (t.map ProviderEvent.provider).Nodup := (List.nodup_cons.mp hnd).2
    by_cases hp : e.provider = p
    · subst hp
      have hfind : lookupEvent (e :: t) e.provider = some e := by
        simp [lookupEvent, List.find?]
      rw [hfind, streamFold_cons,
        streamFold_unchanged _ t e.provider
          fun x hx hq => hmem (hq ▸ List.mem_map_of_mem ProviderEvent.provider hx)]
      simp [applyProviderEvent]
    · have hfind : lookupEvent (e :: t) p = lookupEvent t p := by
        simp [lookupEvent, List.find?, hp]
      rw [hfind, streamFold_cons, ih _ hnd']
      cases hf : lookupEvent t p with
      | some x => simp
      | none =>
        have hq : ¬ (p = e.provider) := fun hq => hp hq.symm
        simp [applyProviderEvent, hq]

/-- C8: provider settlement notifications are order-independent across
distinct providers — the stream consumer stores each provider-completion
event under its provider name, so any two arrival orders that are
permutations of each other over distinct providers produce the identical
final per-provider results mapping. -/
theorem provider_events_order_independent
    (init : String → Option ProviderResult) (es1 es2 : List ProviderEvent)
    (hperm : es1.Perm es2)
    (hnd : (es1.map ProviderEvent.provider).Nodup) :
    streamFold init es1 = streamFold init es2 := by
  have hnd2 : (es2.map ProviderEvent.provider).Nodup :=
    ((hperm.map ProviderEvent.provider).nodup_iff).mp hnd
  funext p
  rw [streamFold_lookup init es1 p hnd, streamFold_lookup init es2 p hnd2]
  suffices h : lookupEvent es1 p = lookupEvent es2 p by rw [h]
  cases h1 : lookupEvent es1 p with
  | some e =>
    have he1 : e ∈ es1 := List.mem_of_find?_eq_some h1
    have hep : e.provider = p := by simpa using List.find?_some h1
    have he2 : e ∈ es2 := hperm.mem_iff.mp he1
    cases h2 : lookupEvent es2 p with
    | some x =>
      have hx2 : x ∈ es2 := List.mem_of_find?_eq_some h2
      have hxp : x.provider = p := by simpa using List.find?_some h2
      have : x = e :=
        List.inj_on_of_nodup_map hnd2 hx2 he2 (by rw [hxp, hep])
      rw [this]
    | none =>
      exact absurd hep (by simpa using List.find?_eq_none.mp h2 e he2)
  | none =>
    cases h2 : lookupEvent es2 p with
    | some x =>
      have hx1 : x ∈ es1 := hperm.mem_iff.mpr (List.mem_of_find?_eq_some h2)
      have hxp : x.provider = p := by simpa using List.find?_some h2
      exact absurd hxp (by simpa using List.find?_eq_none.mp h1 x hx1)
    | none => rfl

/-- C8 witness: two concrete permuted arrival orders of the three providers
yield the same final mapping. -/
theorem provider_events_order_independent_witness :
    ([⟨"virustotal", okSample "virustotal" 90⟩, ⟨"abuseipdb", okSample "abuseipdb" 80⟩,
        ⟨"otx", okSample "otx" 70⟩] : List ProviderEvent).Perm
      [⟨"otx", okSample "otx" 70⟩, ⟨"virustotal", okSample "virustotal" 90⟩,
        ⟨"abuseipdb", okSample "abuseipdb" 80⟩]
    ∧ streamFold emptyStream
        [⟨"virustotal", okSample "virustotal" 90⟩, ⟨"abuseipdb", okSample "abuseipdb" 80⟩,
          ⟨"otx", okSample "otx" 70⟩]
      = streamFold emptyStream
        [⟨"otx", okSample "otx" 70⟩, ⟨"virustotal", okSample "virustotal" 90⟩,
          ⟨"abuseipdb", okSample "abuseipdb" 80⟩] :=
  ⟨by decide,
   provider_events_order_independent emptyStream _ _ (by decide) (by decide)⟩

theorem providerWeight_pos (p : String) : 0 < providerWeight p := by
  unfold providerWeight
  split_ifs <;> decide

theorem subScore_le_100 (r : ProviderResult) (s : Nat)
    (h : subScore r = some s) : s ≤ 100 := by
  unfold subScore at h
  split at h
  · split at h
    · cases h; exact min_le_right _ _
    · split at h
      · split at h
        · split at h
          · cases h; exact Nat.le_refl 100
          · exact absurd h (by simp)
        · cases h; exact min_le_right _ _
      · split at h
        · cases h; exact Nat.le_refl 100
        · exact absurd h (by simp)
  · exact absurd h (by simp)

theorem contributions_sub_le (rs : List ProviderResult) :
    ∀ c ∈ contributions rs, c.sub ≤ 100 ∧ 0 < c.weight := by
  intro c hc
  unfold contributions at hc
  rw [List.mem_filterMap] at hc
  obtain ⟨r, _, heq⟩ := hc
  cases hs : subScore r with
  | none => rw [hs] at heq; exact absurd heq (by simp)
  | some s =>
    rw [hs] at heq
    cases heq
    exact ⟨subScore_le_100 r s hs, providerWeight_pos r.provider⟩

theorem contributions_cons (a : ProviderResult) (t : List ProviderResult) :
    contributions (a :: t) =
      match subScore a with
      | some s => ⟨a.provider, providerWeight a.provider, s⟩ :: contributions t
      | none => contributions t := by
  unfold contributions
  rw [List.filterMap_cons]
  cases subScore a <;> rfl

theorem contributions_eq_nil (rs : List ProviderResult)
    (h : ∀ r ∈ rs, subScore r = none) : contributions rs = [] := by
  induction rs with
  | nil => rfl
  | cons a t ih =>
    rw [contributions_cons, h a (List.mem_cons_self a t)]
    exact ih fun r hr => h r (List.mem_cons_of_mem _ hr)

theorem contributions_ne_nil (rs : List ProviderResult)
    (h : ∃ r ∈ rs, subScore r ≠ none) : contributions rs ≠ [] := by
  obtain ⟨r, hr, hs⟩ := h
  cases hv : subScore r with
  | none => exact absurd hv hs
  | some s =>
    intro hnil
    have hmem : (⟨r.provider, providerWeight r.provider, s⟩ : Contribution)
        ∈ contributions rs := by
      unfold contributions
      rw [List.mem_filterMap]
      exact ⟨r, hr, by rw [hv]; rfl⟩
    rw [hnil] at hmem
    exact absurd hmem (List.not_mem_nil _)

theorem sum_weighted_le (cs : List Contribution) (h : ∀ c ∈ cs, c.sub ≤ 100) :
    (cs.map fun c => c.weight * c.sub).sum
      ≤ 100 * (cs.map fun c => c.weight).sum := by
  induction cs with
  | nil => simp
  | cons c t ih =>
    simp only [List.map_cons, List.sum_cons]
    have h1 : c.weight * c.sub ≤ c.weight * 100 :=
      Nat.mul_le_mul_left _ (h c (List.mem_cons_self c t))
    have h2 := ih fun x hx => h x (List.mem_cons_of_mem _ hx)
    calc c.weight * c.sub + (t.map fun c => c.weight * c.sub).sum
        ≤ c.weight * 100 + 100 * (t.map fun c => c.weight).sum :=
          Nat.add_le_add h1 h2
      _ = 100 * (c.weight + (t.map fun c => c.weight).sum) := by ring

theorem sum_weights_pos (cs : List Contribution) (hne : cs ≠ [])
    (h : ∀ c ∈ cs, 0 < c.weight) :
    0 < (cs.map fun c => c.weight).sum := by
  cases cs with
  | nil => exact absurd rfl hne
  | cons c t =>
    simp only [List.map_cons, List.sum_cons]
    exact Nat.lt_of_lt_of_le (h c (List.mem_cons_self c t)) (Nat.le_add_right _ _)

theorem weightedScore_le_100 (cs : List Contribution) (hne : cs ≠ [])
    (hsub : ∀ c ∈ cs, c.sub ≤ 100 ∧ 0 < c.weight) :
    weightedScore cs ≤ 100 := by
  unfold weightedScore
  have hpos : 0 < (cs.map fun c => c.weight).sum :=
    sum_weights_pos cs hne fun c hc => (hsub c hc).2
  have hle := sum_weighted_le cs fun c hc => (hsub c hc).1
  calc (cs.map fun c => c.weight * c.sub).sum / (cs.map fun c => c.weight).sum
      ≤ 100 * (cs.map fun c => c.weight).sum / (cs.map fun c => c.weight).sum :=
        Nat.div_le_div_right hle
    _ = 100 := by rw [Nat.mul_comm]; exact Nat.mul_div_cancel_left 100 hpos

/-- C2: for every provider-result set with at least one contributing
(status `ok`) provider, the verdict score lies in `[0,100]` and the
category is exactly the threshold bucket of the score — and the bucket map
is monotone in the score, so the category is never decided independently of
the score. -/
theorem verdict_score_in_bounds (rs : List ProviderResult)
    (h : ∃ r ∈ rs, subScore r ≠ none) :
    (score rs).score ≤ 100
    ∧ (score rs).category = categoryOf (score rs).score
    ∧ ∀ a b : Nat, a ≤ b →
        categoryRank (categoryOf a) ≤ categoryRank (categoryOf b) := by
  have hne := contributions_ne_nil rs h
  have hempty : (contributions rs).isEmpty = false := by
    cases hcs : contributions rs with
    | nil => exact absurd hcs hne
    | cons c t => rfl
  refine ⟨?_, ?_, ?_⟩
  · show (score rs).score ≤ 100
    simp only [score, hempty, Bool.false_eq_true, if_false]
    exact weightedScore_le_100 _ hne (contributions_sub_le rs)
  · simp only [score, hempty, Bool.false_eq_true, if_false]
  · intro a b hab
    unfold categoryOf
    split_ifs <;> simp [categoryRank] <;> omega

/-- C2 witness: a concrete set with one contributing provider — the score
is within bounds and the category is the bucket of the score. -/
theorem verdict_score_in_bounds_witness :
    (score [okSample "virustotal" 95, notFoundSample "otx"]).score ≤ 100
    ∧ (score [okSample "virustotal" 95, notFoundSample "otx"]).category
        = categoryOf (score [okSample "virustotal" 95, notFoundSample "otx"]).score :=
  ⟨(verdict_score_in_bounds [okSample "virustotal" 95, notFoundSample "otx"]
      (by decide)).1,
   (verdict_score_in_bounds [okSample "virustotal" 95, notFoundSample "otx"]
      (by decide)).2.1⟩

/-- C3: when zero providers contribute a numeric sub-score (every status is
non-`ok`), `score` returns a `Verdict` — never a failure — with category
`unknown`, score 0, an empty contributing list, and an explanation built
from one fragment per provider naming it and why it was unavailable. -/
theorem zero_contributors_unknown (rs : List ProviderResult)
    (h : ∀ r ∈ rs, r.status ≠ ProviderStatus.ok) :
    (score rs).category = VerdictCategory.unknown
    ∧ (score rs).score = 0
    ∧ (score rs).contributingProviders = []
    ∧ (score rs).explanation
        = "no providers contributed: " ++ joinWithComma (unavailableParts rs)
    ∧ ∀ r ∈ rs,
        (r.provider ++ " unavailable: " ++ statusName r.status)
          ∈ unavailableParts rs := by
  have hcs : contributions rs = [] := by
    apply contributions_eq_nil
    intro r hr
    unfold subScore
    rw [if_neg (h r hr)]
  have hempty : (contributions rs).isEmpty = true := by rw [hcs]; rfl
  refine ⟨?_, ?_, ?_, ?_, ?_⟩
  · simp only [score, hempty, if_true]
  · simp only [score, hempty, if_true]
  · simp only [score, hempty, if_true]
  · simp only [score, hempty, if_true]
  · intro r hr
    exact List.mem_map_of_mem _ hr

/-- C3 witness: all three providers time out — the verdict is `unknown`
with score 0 and the explanation names each provider. -/
theorem zero_contributors_unknown_witness :
    (score [timeoutSample "virustotal", timeoutSample "abuseipdb",
        timeoutSample "otx"]).category = VerdictCategory.unknown
    ∧ (score [timeoutSample "virustotal", timeoutSample "abuseipdb",
        timeoutSample "otx"]).score = 0
    ∧ ("virustotal" ++ " unavailable: " ++ statusName ProviderStatus.timeout)
        ∈ unavailableParts [timeoutSample "virustotal", timeoutSample "abuseipdb",
            timeoutSample "otx"] :=
  ⟨(zero_contributors_unknown _ (by decide)).1,
   (zero_contributors_unknown [timeoutSample "virustotal", timeoutSample "abuseipdb",
      timeoutSample "otx"] (by decide)).2.1,
   (zero_contributors_unknown [timeoutSample "virustotal", timeoutSample "abuseipdb",
      timeoutSample "otx"] (by decide)).2.2.2.2 (timeoutSample "virustotal") (by decide)⟩

theorem contributions_single (r0 : ProviderResult) (v : Nat)
    (hr0 : subScore r0 = some v) :
    ∀ rs : List ProviderResult, rs.count r0 = 1 →
      (∀ r ∈ rs, r ≠ r0 → subScore r = none) →
      contributions rs = [⟨r0.provider, providerWeight r0.provider, v⟩] := by
  intro rs
  induction rs with
  | nil => intro hcount _; simp at hcount
  | cons a t ih =>
    intro hcount hothers
    by_cases ha : a = r0
    · subst ha
      have hct : t.count a = 0 := by
        rw [List.count_cons_self] at hcount; omega
      have hnotmem : a ∉ t := by
        intro hmem
        have := List.count_pos_iff.mpr hmem
        omega
      have htnil : contributions t = [] :=
        contributions_eq_nil t fun r hr =>
          hothers r (List.mem_cons_of_mem _ hr) fun hre => hnotmem (hre ▸ hr)
      rw [contributions_cons, hr0, htnil]
    · have hct : t.count r0 = 1 := by
        rw [List.count_cons] at hcount
        simpa [ha] using hcount
      have hsa : subScore a = none :=
        hothers a (List.mem_cons_self a t) ha
      rw [contributions_cons, hsa]
      exact ih hct fun r hr hne2 => hothers r (List.mem_cons_of_mem _ hr) hne2

/-- C4: a provider with explicit categorical malicious evidence and no
numeric figure contributes sub-score 100 at its fixed weight; when it is
the only non-`not_found` provider, the verdict is `malicious` with score
at least 80 and the explanation names just that provider. -/
theorem categorical_malicious_dominates (rs : List ProviderResult)
    (r0 : ProviderResult) (hcount : rs.count r0 = 1)
    (hok : r0.status = ProviderStatus.ok) (hrep : r0.reputation = none)
    (hmc : r0.maliciousCount = none) (hev : hasMaliciousEvidence r0 = true)
    (hrest : ∀ r ∈ rs, r ≠ r0 → r.status = ProviderStatus.not_found) :
    subScore r0 = some 100
    ∧ (score rs).score = 100
    ∧ (score rs).category = VerdictCategory.malicious
    ∧ 80 ≤ (score rs).score
    ∧ (score rs).contributingProviders = [r0.provider]
    ∧ (score rs).explanation = "based on " ++ r0.provider := by
  have hsub : subScore r0 = some 100 := by
    cases htc : r0.totalChecks <;> simp [subScore, hok, hrep, hmc, hev, htc]
  have hothers : ∀ r ∈ rs, r ≠ r0 → subScore r = none := by
    intro r hr hne
    have hst := hrest r hr hne
    unfold subScore
    rw [hst]
    simp
  have hcs := contributions_single r0 100 hsub rs hcount hothers
  have hempty : (contributions rs).isEmpty = false := by rw [hcs]; rfl
  have hws : weightedScore (contributions rs) = 100 := by
    rw [hcs]
    unfold weightedScore
    simp only [List.map_cons, List.map_nil, List.sum_cons, List.sum_nil,
      Nat.add_zero]
    exact Nat.mul_div_cancel_left 100 (providerWeight_pos r0.provider)
  refine ⟨hsub, ?_, ?_, ?_, ?_, ?_⟩
  · simp only [score, hempty, Bool.false_eq_true, if_false]
    exact hws
  · simp only [score, hempty, Bool.false_eq_true, if_false]
    rw [hws]
    decide
  · simp only [score, hempty, Bool.false_eq_true, if_false]
    rw [hws]
    decide
  · simp only [score, hempty, Bool.false_eq_true, if_false, hcs]
    rfl
  · simp only [score, hempty, Bool.false_eq_true, if_false, hcs]
    rfl

/-- C4 witness: one provider returns an explicit blocklist hit with no
numeric score and two return `not_found` — verdict `malicious`, score at
least 80, explanation naming the single contributing provider. -/
theorem categorical_malicious_dominates_witness :
    subScore (blocklistSample "virustotal") = some 100
    ∧ (score [blocklistSample "virustotal", notFoundSample "abuseipdb",
        notFoundSample "otx"]).category = VerdictCategory.malicious
    ∧ 80 ≤ (score [blocklistSample "virustotal", notFoundSample "abuseipdb",
        notFoundSample "otx"]).score
    ∧ (score [blocklistSample "virustotal", notFoundSample "abuseipdb",
        notFoundSample "otx"]).contributingProviders = ["virustotal"] :=
  ⟨(categorical_malicious_dominates
      [blocklistSample "virustotal", notFoundSample "abuseipdb", notFoundSample "otx"]
      (blocklistSample "virustotal") (by decide) rfl rfl rfl (by decide) (by decide)).1,
   (categorical_malicious_dominates
      [blocklistSample "virustotal", notFoundSample "abuseipdb", notFoundSample "otx"]
      (blocklistSample "virustotal") (by decide) rfl rfl rfl (by decide) (by decide)).2.2.1,
   (categorical_malicious_dominates
      [blocklistSample "virustotal", notFoundSample "abuseipdb", notFoundSample "otx"]
      (blocklistSample "virustotal") (by decide) rfl rfl rfl (by decide) (by decide)).2.2.2.1,
   (categorical_malicious_dominates
      [blocklistSample "virustotal", notFoundSample "abuseipdb", notFoundSample "otx"]
      (blocklistSample "virustotal") (by decide) rfl rfl rfl (by decide) (by decide)).2.2.2.2.1⟩

theorem fetchWithCache_entries_sub (c : Cache) (k : CacheKey) (fr : Bool)
    (live : ProviderResult) :
    (fetchWithCache c k fr live).cacheAfter.entries = c.entries
    ∨ (cacheable live = true
        ∧ (fetchWithCache c k fr live).cacheAfter.entries = (k, live) :: c.entries) := by
  unfold fetchWithCache
  cases fr with
  | true =>
    cases hl : cacheable live with
    | true => right; exact ⟨rfl, by simp [hl, Cache.put]⟩
    | false => left; simp [hl]
  | false =>
    cases hg : c.get k with
    | some r => left; rfl
    | none =>
      cases hl : cacheable live with
      | true => right; exact ⟨rfl, by simp [hl, Cache.put]⟩
      | false => left; simp [hl]

theorem fetchWithCache_force (c : Cache) (k : CacheKey) (live : ProviderResult) :
    (fetchWithCache c k true live).result = live
    ∧ (fetchWithCache c k true live).fromCache = false
    ∧ (fetchWithCache c k true live).cacheAfter
        = (if cacheable live then c.put k live else c) :=
  ⟨rfl, rfl, rfl⟩

theorem fetchWithCache_transient (c : Cache) (k : CacheKey) (fr : Bool)
    (live : ProviderResult) (hl : cacheable live = false) :
    (fetchWithCache c k fr live).cacheAfter = c := by
  unfold fetchWithCache
  cases fr with
  | true => simp [hl]
  | false =>
    cases hg : c.get k with
    | some r => rfl
    | none => simp [hl]

/-- C6: the cache only ever holds definitive (`ok`/`not_found`) results:
the invariant is preserved by every fetch, a transient live result leaves
the cache untouched (so the next request for that key still misses and
retries live), and `force_refresh` bypasses the `get` entirely — the
returned result is the live one, not a cache hit — while still performing
the `put` of the freshly fetched result when it is definitive. -/
theorem cache_stores_definitive_only (c : Cache) (k : CacheKey) (fr : Bool)
    (live : ProviderResult) :
    ((∀ e ∈ c.entries, cacheable e.2 = true) →
      ∀ e ∈ (fetchWithCache c k fr live).cacheAfter.entries, cacheable e.2 = true)
    ∧ (cacheable live = false → (fetchWithCache c k fr live).cacheAfter = c)
    ∧ (fetchWithCache c k true live).result = live
    ∧ (fetchWithCache c k true live).fromCache = false
    ∧ (cacheable live = true →
        ((fetchWithCache c k true live).cacheAfter).get k = some live)
    ∧ (cacheable live = false → c.get k = none →
        ((fetchWithCache c k fr live).cacheAfter).get k = none) := by
  refine ⟨?_, fetchWithCache_transient c k fr live, (fetchWithCache_force c k live).1,
    (fetchWithCache_force c k live).2.1, ?_, ?_⟩
  · intro hinv e he
    rcases fetchWithCache_entries_sub c k fr live with hsub | ⟨hl, hsub⟩
    · rw [hsub] at he
      exact hinv e he
    · rw [hsub] at he
      rcases List.mem_cons.mp he with h1 | h1
      · rw [h1]; exact hl
      · exact hinv e h1
  · intro hl
    rw [(fetchWithCache_force c k live).2.2, if_pos hl]
    simp [Cache.get, Cache.put, List.lookup]
  · intro hl hget
    rw [fetchWithCache_transient c k fr live hl]
    exact hget

/-- C6 witness: on an empty cache, a timed-out live result is not stored,
while a forced refresh returns the live `ok` result and stores it. -/
theorem cache_stores_definitive_only_witness :
    (fetchWithCache ⟨[]⟩ ("virustotal", "8.8.8.8") false
        (timeoutSample "virustotal")).cacheAfter = ⟨[]⟩
    ∧ (fetchWithCache ⟨[]⟩ ("virustotal", "8.8.8.8") true
        (okSample "virustotal" 95)).result = okSample "virustotal" 95
    ∧ ((fetchWithCache ⟨[]⟩ ("virustotal", "8.8.8.8") true
        (okSample "virustotal" 95)).cacheAfter).get ("virustotal", "8.8.8.8")
        = some (okSample "virustotal" 95) :=
  ⟨(cache_stores_definitive_only ⟨[]⟩ ("virustotal", "8.8.8.8") false
      (timeoutSample "virustotal")).2.1 (by decide),
   (cache_stores_definitive_only ⟨[]⟩ ("virustotal", "8.8.8.8") true
      (okSample "virustotal" 95)).2.2.1,
   (cache_stores_definitive_only ⟨[]⟩ ("virustotal", "8.8.8.8") true
      (okSample "virustotal" 95)).2.2.2.2.1 (by decide)⟩

theorem bulkStep_malformed (crash : String → Bool) (j : BulkJob) (l : String)
    (hm : isMalformed l = true) :
    bulkStep crash j l
      = { j with processed := j.processed + 1, failed := j.failed + 1 } := by
  simp [bulkStep, lineOutcome, hm]

theorem bulkStep_crashed (crash : String → Bool) (j : BulkJob) (l : String)
    (hm : isMalformed l = false) (hc : crash l = true) :
    bulkStep crash j l
      = { j with processed := j.processed + 1, failed := j.failed + 1, providerCalls := j.providerCalls + 1 } := by
  simp [bulkStep, lineOutcome, hm, hc]

theorem bulkStep_succeeded (crash : String → Bool) (j : BulkJob) (l : String)
    (hm : isMalformed l = false) (hc : crash l = false) :
    bulkStep crash j l
      = { j with processed := j.processed + 1, completed := j.completed + 1, providerCalls := j.providerCalls + 1 } := by
  simp [bulkStep, lineOutcome, hm, hc]

theorem bulkStep_counters (crash : String → Bool) (j : BulkJob) (l : String) :
    (bulkStep crash j l).total = j.total
    ∧ (bulkStep crash j l).processed = j.processed + 1
    ∧ (bulkStep crash j l).completed + (bulkStep crash j l).failed
        = j.completed + j.failed + 1 := by
  by_cases hm : isMalformed l = true
  · rw [bulkStep_malformed crash j l hm]
    refine ⟨rfl, rfl, ?_⟩
    show j.completed + (j.failed + 1) = j.completed + j.failed + 1
    omega
  · have hm' : isMalformed l = false := by
      cases hq : isMalformed l
      · rfl
      · exact absurd hq hm
    by_cases hc : crash l = true
    · rw [bulkStep_crashed crash j l hm' hc]
      refine ⟨rfl, rfl, ?_⟩
      show j.completed + (j.failed + 1) = j.completed + j.failed + 1
      omega
    · have hc' : crash l = false := by
        cases hq : crash l
        · rfl
        · exact absurd hq hc
      rw [bulkStep_succeeded crash j l hm' hc']
      refine ⟨rfl, rfl, ?_⟩
      show (j.completed + 1) + j.failed = j.completed + j.failed + 1
      omega

theorem bulk_scanl_invariant (crash : String → Bool) :
    ∀ (lines : List String) (j : BulkJob),
      j.completed + j.failed = j.processed →
      ∀ x ∈ lines.scanl (bulkStep crash) j,
        x.completed + x.failed = x.processed ∧ x.total = j.total := by
  intro lines
  induction lines with
  | nil =>
    intro j hj x hx
    simp [List.scanl] at hx
    rw [hx]
    exact ⟨hj, rfl⟩
  | cons l t ih =>
    intro j hj x hx
    simp only [List.scanl] at hx
    rcases List.mem_cons.mp hx with h1 | h1
    · rw [h1]
      exact ⟨hj, rfl⟩
    · have hstep := bulkStep_counters crash j l
      have hres := ih (bulkStep crash j l) (by omega) x h1
      exact ⟨hres.1, hres.2.trans hstep.1⟩

theorem bulk_foldl_counters (crash : String → Bool) :
    ∀ (lines : List String) (j : BulkJob),
      (lines.foldl (bulkStep crash) j).total = j.total
      ∧ (lines.foldl (bulkStep crash) j).processed = j.processed + lines.length
      ∧ (lines.foldl (bulkStep crash) j).providerCalls
          = j.providerCalls + (lines.filter fun x => !(isMalformed x)).length
      ∧ (lines.foldl (bulkStep crash) j).failed
          = j.failed + (lines.filter isMalformed).length
            + (lines.filter fun x => !(isMalformed x) && crash x).length
      ∧ (lines.foldl (bulkStep crash) j).completed
          = j.completed + (lines.filter fun x => !(isMalformed x) && !(crash x)).length := by
  intro lines
  induction lines with
  | nil => intro j; simp
  | cons l t ih =>
    intro j
    by_cases hm : isMalformed l = true
    · have hstep := bulkStep_malformed crash j l hm
      have iht := ih (bulkStep crash j l)
      rw [hstep] at iht
      obtain ⟨h1, h2, h3, h4, h5⟩ := iht
      dsimp only at h1 h2 h3 h4 h5
      rw [List.foldl_cons, hstep]
      refine ⟨h1, ?_, ?_, ?_, ?_⟩
      · simp only [List.length_cons]
        omega
      · simp [List.filter_cons, hm]
        omega
      · simp [List.filter_cons, hm]
        omega
      · simp [List.filter_cons, hm]
        omega
    · have hm' : isMalformed l = false := by
        cases hq : isMalformed l
        · rfl
        · exact absurd hq hm
      by_cases hc : crash l = true
      · have hstep := bulkStep_crashed crash j l hm' hc
        have iht := ih (bulkStep crash j l)
        rw [hstep] at iht
        obtain ⟨h1, h2, h3, h4, h5⟩ := iht
        dsimp only at h1 h2 h3 h4 h5
        rw [List.foldl_cons, hstep]
        refine ⟨h1, ?_, ?_, ?_, ?_⟩
        · simp only [List.length_cons]
          omega
        · simp [List.filter_cons, hm']
          omega
        · simp [List.filter_cons, hm', hc]
          omega
        · simp [List.filter_cons, hm', hc]
          omega
      · have hc' : crash l = false := by
          cases hq : crash l
          · rfl
          · exact absurd hq hc
        have hstep := bulkStep_succeeded crash j l hm' hc'
        have iht := ih (bulkStep crash j l)
        rw [hstep] at iht
        obtain ⟨h1, h2, h3, h4, h5⟩ := iht
        dsimp only at h1 h2 h3 h4 h5
        rw [List.foldl_cons, hstep]
        refine ⟨h1, ?_, ?_, ?_, ?_⟩
        · simp only [List.length_cons]
          omega
        · simp [List.filter_cons, hm']
          omega
        · simp [List.filter_cons, hm', hc']
          omega
        · simp [List.filter_cons, hm', hc']
          omega

/-- C7: for every bulk job, `total` is the number of input lines; at every
moment of the job's lifetime `completed + failed = processed` and `total`
is unchanged; the terminal state has `processed = total` and status
`completed`, and in general the status is `completed` exactly when
`processed = total`; malformed lines are recorded as failed without a
provider call — provider runs are consumed only by well-formed lines, and
`failed` is exactly the malformed lines plus the crashed well-formed
ones. -/
theorem bulk_job_accounting (crash : String → Bool) (lines : List String) :
    (initJob lines.length).total = lines.length
    ∧ (∀ x ∈ bulkTrace crash lines,
        x.completed + x.failed = x.processed ∧ x.total = lines.length)
    ∧ (runBulk crash lines).processed = lines.length
    ∧ jobStatus (runBulk crash lines) = JobStatus.completed
    ∧ (∀ j : BulkJob, jobStatus j = JobStatus.completed ↔ j.processed = j.total)
    ∧ (runBulk crash lines).providerCalls
        = (lines.filter fun x => !(isMalformed x)).length
    ∧ (runBulk crash lines).failed
        = (lines.filter isMalformed).length
          + (lines.filter fun x => !(isMalformed x) && crash x).length := by
  have hfold := bulk_foldl_counters crash lines (initJob lines.length)
  have hstatus : ∀ j : BulkJob,
      jobStatus j = JobStatus.completed ↔ j.processed = j.total := by
    intro j
    unfold jobStatus
    split_ifs with hj
    · simp [hj]
    · simp [hj]
  have hproc : (runBulk crash lines).processed = lines.length := by
    have := hfold.2.1
    unfold runBulk
    simpa [initJob] using this
  have htot : (runBulk crash lines).total = lines.length := by
    have := hfold.1
    unfold runBulk
    simpa [initJob] using this
  refine ⟨rfl, ?_, hproc, ?_, hstatus, ?_, ?_⟩
  · exact bulk_scanl_invariant crash lines (initJob lines.length) rfl
  · exact (hstatus (runBulk crash lines)).mpr (hproc.trans htot.symm)
  · have := hfold.2.2.1
    unfold runBulk
    simpa [initJob] using this
  · have := hfold.2.2.2.1
    unfold runBulk
    simpa [initJob] using this

/-- C7 witness: two input lines of which one is malformed — the terminal
job has the right counters, and the freshly submitted job already satisfies
the running invariant. -/
theorem bulk_job_accounting_witness :
    (initJob (["8.8.8.8", "bad input!!"] : List String).length).total = 2
    ∧ ((initJob 2).completed + (initJob 2).failed = (initJob 2).processed
        ∧ (initJob 2).total = 2)
    ∧ (runBulk noCrash ["8.8.8.8", "bad input!!"]).processed = 2
    ∧ jobStatus (runBulk noCrash ["8.8.8.8", "bad input!!"]) = JobStatus.completed
    ∧ (runBulk noCrash ["8.8.8.8", "bad input!!"]).providerCalls
        = ((["8.8.8.8", "bad input!!"] : List String).filter
            fun x => !(isMalformed x)).length :=
  ⟨(bulk_job_accounting noCrash ["8.8.8.8", "bad input!!"]).1,
   (bulk_job_accounting noCrash ["8.8.8.8", "bad input!!"]).2.1 (initJob 2) (by decide),
   (bulk_job_accounting noCrash ["8.8.8.8", "bad input!!"]).2.2.1,
   (bulk_job_accounting noCrash ["8.8.8.8", "bad input!!"]).2.2.2.1,
   (bulk_job_accounting noCrash ["8.8.8.8", "bad input!!"]).2.2.2.2.2.1⟩

theorem isIPv4_ne_nil (cs : List Char) (h : isIPv4 cs = true) :
    cs.isEmpty = false := by
  cases cs with
  | nil => exact absurd h (by decide)
  | cons c t => rfl

theorem isIPv6_ne_nil (cs : List Char) (h : isIPv6 cs = true) :
    cs.isEmpty = false := by
  cases cs with
  | nil => exact absurd h (by decide)
  | cons c t => rfl

theorem isHexString_ne_nil (cs : List Char) (h : isHexString cs = true) :
    cs.isEmpty = false := by
  cases cs with
  | nil => exact absurd h (by decide)
  | cons c t => rfl

theorem hasScheme_ne_nil (cs : List Char) (h : hasScheme cs = true) :
    cs.isEmpty = false := by
  cases cs with
  | nil => exact absurd h (by decide)
  | cons c t => rfl

theorem isDomain_ne_nil (cs : List Char) (h : isDomain cs = true) :
    cs.isEmpty = false := by
  cases cs with
  | nil => exact absurd h (by decide)
  | cons c t => rfl

/-- C5: `classify` strips surrounding whitespace and tries the shapes in the
fixed order IPv4, IPv6, hash (length 32 = md5, 40 = sha1, 64 = sha256,
hex-only), URL (has a scheme), else domain; it fails exactly when the
trimmed string is empty or matches none of these shapes, and it is total —
every input yields exactly one classified indicator or a failure. -/
theorem classify_shape_order (s : String) :
    ((∃ e, classify s = Except.error e) ↔
      ((jsTrim s).data = []
        ∨ (isIPv4 (jsTrim s).data = false
          ∧ isIPv6 (jsTrim s).data = false
          ∧ (isHexString (jsTrim s).data = false
            ∨ ((jsTrim s).length ≠ 32 ∧ (jsTrim s).length ≠ 40
                ∧ (jsTrim s).length ≠ 64))
          ∧ hasScheme (jsTrim s).data = false
          ∧ isDomain (jsTrim s).data = false)))
    ∧ (isIPv4 (jsTrim s).data = true →
        classify s = .ok ⟨jsTrim s, .ipv4, canonicalOf .ipv4 (jsTrim s)⟩)
    ∧ (isIPv4 (jsTrim s).data = false → isIPv6 (jsTrim s).data = true →
        classify s = .ok ⟨jsTrim s, .ipv6, canonicalOf .ipv6 (jsTrim s)⟩)
    ∧ (isIPv4 (jsTrim s).data = false → isIPv6 (jsTrim s).data = false →
        isHexString (jsTrim s).data = true → (jsTrim s).length = 32 →
        classify s = .ok ⟨jsTrim s, .md5, canonicalOf .md5 (jsTrim s)⟩)
    ∧ (isIPv4 (jsTrim s).data = false → isIPv6 (jsTrim s).data = false →
        isHexString (jsTrim s).data = true → (jsTrim s).length = 40 →
        classify s = .ok ⟨jsTrim s, .sha1, canonicalOf .sha1 (jsTrim s)⟩)
    ∧ (isIPv4 (jsTrim s).data = false → isIPv6 (jsTrim s).data = false →
        isHexString (jsTrim s).data = true → (jsTrim s).length = 64 →
        classify s = .ok ⟨jsTrim s, .sha256, canonicalOf .sha256 (jsTrim s)⟩)
    ∧ (isIPv4 (jsTrim s).data = false → isIPv6 (jsTrim s).data = false →
        (isHexString (jsTrim s).data = false
          ∨ ((jsTrim s).length ≠ 32 ∧ (jsTrim s).length ≠ 40
              ∧ (jsTrim s).length ≠ 64)) →
        hasScheme (jsTrim s).data = true →
        classify s = .ok ⟨jsTrim s, .url, canonicalOf .url (jsTrim s)⟩)
    ∧ (isIPv4 (jsTrim s).data = false → isIPv6 (jsTrim s).data = false →
        (isHexString (jsTrim s).data = false
          ∨ ((jsTrim s).length ≠ 32 ∧ (jsTrim s).length ≠ 40
              ∧ (jsTrim s).length ≠ 64)) →
        hasScheme (jsTrim s).data = false → isDomain (jsTrim s).data = true →
        classify s = .ok ⟨jsTrim s, .domain, canonicalOf .domain (jsTrim s)⟩)
    ∧ ((∃ e, classify s = .error e) ∨ (∃ i, classify s = .ok i)) := by
  refine ⟨⟨?_, ?_⟩, ?_, ?_, ?_, ?_, ?_, ?_, ?_, ?_⟩
  · rintro ⟨e, he⟩
    by_cases h0 : (jsTrim s).data.isEmpty = true
    · left
      cases hd : (jsTrim s).data with
      | nil => rfl
      | cons c t => rw [hd] at h0; simp at h0
    · right
      have h0' : (jsTrim s).data.isEmpty = false := by
        cases hq : (jsTrim s).data.isEmpty
        · rfl
        · exact absurd hq h0
      have hip4 : isIPv4 (jsTrim s).data = false := by
        cases hq : isIPv4 (jsTrim s).data
        · rfl
        · simp [classify, h0', hq] at he
      have hip6 : isIPv6 (jsTrim s).data = false := by
        cases hq : isIPv6 (jsTrim s).data
        · rfl
        · simp [classify, h0', hip4, hq] at he
      have hhexlen : isHexString (jsTrim s).data = false
          ∨ ((jsTrim s).length ≠ 32 ∧ (jsTrim s).length ≠ 40
              ∧ (jsTrim s).length ≠ 64) := by
        cases hq : isHexString (jsTrim s).data
        · exact Or.inl rfl
        · right
          refine ⟨?_, ?_, ?_⟩
          · intro hl; simp [classify, h0', hip4, hip6, hq, hl] at he
          · intro hl; simp [classify, h0', hip4, hip6, hq, hl] at he
          · intro hl; simp [classify, h0', hip4, hip6, hq, hl] at he
      have hsch : hasScheme (jsTrim s).data = false := by
        cases hq : hasScheme (jsTrim s).data
        · rfl
        · rcases hhexlen with hq2 | ⟨h32, h40, h64⟩
          · simp [classify, h0', hip4, hip6, hq2, hq] at he
          · simp [classify, h0', hip4, hip6, h32, h40, h64, hq] at he
      have hdom : isDomain (jsTrim s).data = false := by
        cases hq : isDomain (jsTrim s).data
        · rfl
        · rcases hhexlen with hq2 | ⟨h32, h40, h64⟩
          · simp [classify, h0', hip4, hip6, hq2, hsch, hq] at he
          · simp [classify, h0', hip4, hip6, h32, h40, h64, hsch, hq] at he
      exact ⟨hip4, hip6, hhexlen, hsch, hdom⟩
  · intro h
    rcases h with hnil | ⟨hip4, hip6, hhexlen, hsch, hdom⟩
    · refine ⟨⟨"empty input"⟩, ?_⟩
      have h0 : (jsTrim s).data.isEmpty = true := by rw [hnil]; rfl
      simp [classify, h0]
    · by_cases h0 : (jsTrim s).data.isEmpty = true
      · exact ⟨⟨"empty input"⟩, by simp [classify, h0]⟩
      · have h0' : (jsTrim s).data.isEmpty = false := by
          cases hq : (jsTrim s).data.isEmpty
          · rfl
          · exact absurd hq h0
        refine ⟨⟨"unrecognized IOC shape"⟩, ?_⟩
        rcases hhexlen with hq2 | ⟨h32, h40, h64⟩
        · simp [classify, h0', hip4, hip6, hq2, hsch, hdom]
        · simp [classify, h0', hip4, hip6, h32, h40, h64, hsch, hdom]
  · intro hb
    simp [classify, isIPv4_ne_nil _ hb, hb]
  · intro hip4 hb
    simp [classify, isIPv6_ne_nil _ hb, hip4, hb]
  · intro hip4 hip6 hhex hlen
    simp [classify, isHexString_ne_nil _ hhex, hip4, hip6, hhex, hlen]
  · intro hip4 hip6 hhex hlen
    simp [classify, isHexString_ne_nil _ hhex, hip4, hip6, hhex, hlen]
  · intro hip4 hip6 hhex hlen
    simp [classify, isHexString_ne_nil _ hhex, hip4, hip6, hhex, hlen]
  · intro hip4 hip6 hhexlen hb
    rcases hhexlen with hq2 | ⟨h32, h40, h64⟩
    · simp [classify, hasScheme_ne_nil _ hb, hip4, hip6, hq2, hb]
    · simp [classify, hasScheme_ne_nil _ hb, hip4, hip6, h32, h40, h64, hb]
  · intro hip4 hip6 hhexlen hsch hb
    rcases hhexlen with hq2 | ⟨h32, h40, h64⟩
    · simp [classify, isDomain_ne_nil _ hb, hip4, hip6, hq2, hsch, hb]
    · simp [classify, isDomain_ne_nil _ hb, hip4, hip6, h32, h40, h64, hsch, hb]
  · cases hcl : classify s with
    | error e => exact Or.inl ⟨e, rfl⟩
    | ok i => exact Or.inr ⟨i, rfl⟩

/-- C5 witness: a padded IPv4 literal classifies as `ipv4` on its trimmed
form, and a string matching no shape yields a classification failure. -/
theorem classify_shape_order_witness :
    isIPv4 (jsTrim "  8.8.8.8  ").data = true
    ∧ classify "  8.8.8.8  "
        = Except.ok ⟨jsTrim "  8.8.8.8  ", IndicatorKind.ipv4,
            canonicalOf IndicatorKind.ipv4 (jsTrim "  8.8.8.8  ")⟩
    ∧ (∃ e, classify "!!" = Except.error e) :=
  ⟨by decide,
   (classify_shape_order "  8.8.8.8  ").2.1 (by decide),
   (classify_shape_order "!!").1.mpr (by decide)⟩

theorem orchestrate_completeCount (ind : Indicator) (providers : List String)
    (behavior : String → ProviderOutcome) :
    completeCount (orchestrate ind providers behavior) = 1 := by
  unfold orchestrate completeCount
  rw [List.countP_append, List.countP_map]
  simp [Function.comp]

theorem orchestrate_settleCount (ind : Indicator) (providers : List String)
    (behavior : String → ProviderOutcome) (p : String) :
    settleCount p (orchestrate ind providers behavior) = providers.count p := by
  unfold orchestrate settleCount
  rw [List.countP_append, List.countP_map]
  show List.countP (fun q => q == p) providers + 0 = List.count p providers
  rw [Nat.add_zero]
  rfl

/-- C1: once every provider task has settled or the overall deadline has
elapsed (outstanding providers becoming `timeout` slots), the orchestrator
emits exactly one terminal event carrying the full `AggregateResult` (with
the verdict computed by the scoring engine) as the last event; over
distinct configured providers each provider contributes exactly one
settlement (never more); and a request fails precisely on classification
errors — per-provider failures are data in the trace, never thrown. -/
theorem orchestrator_completes_once (raw : String) (providers : List String)
    (behavior : String → ProviderOutcome) (hnd : providers.Nodup) :
    (∀ e, runRequest raw providers behavior = Except.error e
        ↔ classify raw = Except.error e)
    ∧ (∀ evs, runRequest raw providers behavior = Except.ok evs →
        completeCount evs = 1
        ∧ (∀ p, settleCount p evs ≤ 1)
        ∧ (∀ p, p ∈ providers → settleCount p evs = 1)
        ∧ (∃ agg, evs.getLast? = some (StreamEvent.streamComplete agg)
            ∧ agg.providerResults.length = providers.length
            ∧ agg.verdict = score agg.providerResults)) := by
  constructor
  · intro e
    unfold runRequest
    cases hcl : classify raw <;> simp [Except.map]
  · intro evs hevs
    unfold runRequest at hevs
    cases hcl : classify raw with
    | error e =>
      rw [hcl] at hevs
      exact absurd hevs (by simp [Except.map])
    | ok ind =>
      rw [hcl] at hevs
      simp only [Except.map, Except.ok.injEq] at hevs
      subst hevs
      refine ⟨orchestrate_completeCount ind providers behavior, ?_, ?_, ?_⟩
      · intro p
        rw [orchestrate_settleCount]
        exact List.nodup_iff_count_le_one.mp hnd p
      · intro p hp
        rw [orchestrate_settleCount]
        exact List.count_eq_one_of_mem hnd hp
      · refine ⟨⟨ind, providers.map (settleOf behavior),
          score (providers.map (settleOf behavior))⟩, ?_, ?_, rfl⟩
        · unfold orchestrate
          exact List.getLast?_concat _
        · simp

/-- C1 witness: a concrete request over the three distinct providers, all
settling `ok`, has exactly one terminal event and exactly one virustotal
settlement. -/
theorem orchestrator_completes_once_witness :
    (["virustotal", "abuseipdb", "otx"] : List String).Nodup
    ∧ completeCount (orchestrate ⟨"8.8.8.8", IndicatorKind.ipv4, "8.8.8.8"⟩
        ["virustotal", "abuseipdb", "otx"] allSettleOk) = 1
    ∧ settleCount "virustotal"
        (orchestrate ⟨"8.8.8.8", IndicatorKind.ipv4, "8.8.8.8"⟩
          ["virustotal", "abuseipdb", "otx"] allSettleOk) = 1 :=
  ⟨by decide,
   ((orchestrator_completes_once "8.8.8.8" ["virustotal", "abuseipdb", "otx"]
      allSettleOk (by decide)).2 _ rfl).1,
   ((orchestrator_completes_once "8.8.8.8" ["virustotal", "abuseipdb", "otx"]
      allSettleOk (by decide)).2 _ rfl).2.2.1 "virustotal" (by decide)⟩
